import Mathlib

/-!
Verification of the DNS-over-HTTPS resolution cache and query-coalescing
engine of `app/dns/nameserver_doh.go`: the record store, the freshness
guard, the expiry sweeper, the query dispatch path and the wait loop of
`QueryIP`.  Types and helpers that the source file uses but defines
elsewhere in the repository (`record`, `IPRecord`, `getIPs`, `isNewer`,
`buildReqMsgs`, the shared error values) are modelled from the design
document, as their doc comments state.
-/

namespace Doh

/-- Modelled from the spec: a resolved network address (§3, the elements of
a FamilyAnswer's address list); `IP` is its raw byte form, as produced by
the source's `ip.IP()` call whose length the AAAA filter tests. -/
structure Address where
  IP : List Nat
deriving DecidableEq

/-- Byte length of a true 128-bit IPv6 address (`net.IPv6len`). -/
def IPv6len : Nat := 16

/-- Modelled from the spec: FamilyAnswer (§3) — the per-family cached
answer, `IPRecord` in the source (defined outside this file's package
slice): `ReqID` is the 16-bit wrapping request sequence, `IP` the address
list, `Expire` the absolute expiry timestamp. -/
structure IPRecord where
  ReqID : Nat
  IP : List Address
  Expire : Nat
deriving DecidableEq

/-- Modelled from the spec: DomainRecord (§3) — at most one cached answer
per address family (`record` in the source): slot `A` for IPv4, slot
`AAAA` for IPv6; an absent slot is `none`. -/
structure record where
  A : Option IPRecord
  AAAA : Option IPRecord
deriving DecidableEq

/-- The record store: the `ips` map of `DoHNameServer`, keyed by FQDN,
as an association list. -/
abbrev Store := List (String × record)

/-- Go map assignment `s.ips[d] = r`: replace the binding of `d`, or add
it when absent. -/
def Store.insert : Store → String → record → Store
  | [], d, r => [(d, r)]
  | (d0, r0) :: t, d, r =>
    if d0 = d then (d, r) :: t else (d0, r0) :: Store.insert t d r

/-- Modelled from the spec: the caller-supplied resolution options (§3) —
the two family-selection flags of `dns_feature.IPOption` that this file
reads. -/
structure IPOption where
  IPv4Enable : Bool
  IPv6Enable : Bool
deriving DecidableEq

/-- Modelled from the spec: the error conditions of the lookup path (§7) —
`errRecordNotFound` ("not-yet-known", internal) and
`dns_feature.ErrEmptyResponse` (authoritative empty answer). -/
inductive DNSErr where
  | errRecordNotFound
  | errEmptyResponse
deriving DecidableEq

/-- Modelled from the spec: per-family answer extraction, the source's
`IPRecord.getIPs` (defined outside this slice).  Per §9 the absent family
slot yields no addresses and no error; a present answer yields its address
list.  The §4.1 lookup contract is time-free — expiry is the sweeper's
job (§4.4) — so no clock is consulted here. -/
def getIPs : Option IPRecord → List Address × Option DNSErr
  | none => ([], none)
  | some r => (r.IP, none)

/-- A raw `net.IP` value: the byte form of one address. -/
abbrev NetIP := List Nat

/-- Modelled from the spec: `toNetIP` turns resolved addresses into raw
IPs; §3's addresses are already resolved network addresses, so this is
the byte projection. -/
def toNetIP (l : List Address) : List NetIP := l.map Address.IP

/-- Translation of `findIPsForDomain` (nameserver_doh.go lines 311-351):
look up the domain; gather the addresses of each requested family;
return them when any exist; otherwise surface a per-family error if one
occurred, then the empty-response condition when a requested family slot
is present, and record-not-found when none is. -/
def findIPsForDomain (st : Store) (domain : String) (option : IPOption) :
    Except DNSErr (List NetIP) :=
  match List.lookup domain st with
  | none => Except.error DNSErr.errRecordNotFound
  | some r =>
    let p4 := if option.IPv4Enable then getIPs r.A else ([], none)
    let p6 := if option.IPv6Enable then getIPs r.AAAA else ([], none)
    let ips := p4.1 ++ p6.1
    if ips.length > 0 then Except.ok (toNetIP ips)
    else
      match p4.2 with
      | some e => Except.error e
      | none =>
        match p6.2 with
        | some e => Except.error e
        | none =>
          if (option.IPv4Enable && r.A.isSome) || (option.IPv6Enable && r.AAAA.isSome) then
            Except.error DNSErr.errEmptyResponse
          else
            Except.error DNSErr.errRecordNotFound

/-- The two DNS question types the orchestrator issues, one per requested
family (§4.5): `dnsmessage.TypeA` and `dnsmessage.TypeAAAA`. -/
inductive ReqType where
  | TypeA
  | TypeAAAA
deriving DecidableEq

/-- Modelled from the spec: PendingRequest (§3) — the fields of the
source's `dnsRequest` that `updateIP` reads: the FQDN and the question
type. -/
structure dnsRequest where
  domain : String
  reqType : ReqType
deriving DecidableEq

/-- Modelled from the spec: the Freshness Guard (§4.2), the source's
`isNewer` (defined outside this slice): the candidate supersedes the
current answer iff there is no current answer, or the signed 16-bit
difference of request sequences (candidate minus current) is positive
under wraparound. -/
def isNewer (base : Option IPRecord) (newRec : IPRecord) : Bool :=
  match base with
  | none => true
  | some b =>
    let d := (newRec.ReqID % 65536 + 65536 - b.ReqID % 65536) % 65536
    decide (0 < d ∧ d < 32768)

/-- What `updateIP` leaves behind: the store after the merge attempt and
the pub/sub topics published.  The source function returns nothing to its
caller — a rejected candidate is not an error, merely ignored. -/
structure UpdateResult where
  ips : Store
  published : List String
deriving DecidableEq

/-- Translation of `updateIP` (nameserver_doh.go lines 177-219): fetch (or
freshly create) the domain's record; for an A answer install the candidate
when the guard accepts it; for an AAAA answer first filter the candidate's
addresses to true 16-byte IPv6 addresses, then consult the guard; write
the record back only when updated; publish on the family topic
unconditionally. -/
def updateIP (ips : Store) (req : dnsRequest) (ipRec : IPRecord) : UpdateResult :=
  let r0 := (List.lookup req.domain ips).getD ⟨none, none⟩
  match req.reqType with
  | ReqType.TypeA =>
    let st := if isNewer r0.A ipRec then
        Store.insert ips req.domain ⟨some ipRec, r0.AAAA⟩
      else ips
    ⟨st, [req.domain ++ "4"]⟩
  | ReqType.TypeAAAA =>
    let addr := ipRec.IP.filter fun ip => ip.IP.length == IPv6len
    let ipRec6 : IPRecord := ⟨ipRec.ReqID, addr, ipRec.Expire⟩
    let st := if isNewer r0.AAAA ipRec6 then
        Store.insert ips req.domain ⟨r0.A, some ipRec6⟩
      else ips
    ⟨st, [req.domain ++ "6"]⟩

/-- Translation of `newReqID` (nameserver_doh.go lines 221-223): increment
the process-wide 32-bit counter and truncate the new value to 16 bits.
Returns the issued identifier and the new counter state. -/
def newReqID (reqID : Nat) : Nat × Nat :=
  let c := (reqID + 1) % 4294967296
  (c % 65536, c)

/-- One family slot of the sweep in `Cleanup`: clear the slot when its
expiry has passed (`Expire.Before(now)` is a strict comparison). -/
def cleanupSlot (now : Nat) : Option IPRecord → Option IPRecord
  | some x => if x.Expire < now then none else some x
  | none => none

/-- The body of `Cleanup`'s range loop for one domain entry
(nameserver_doh.go lines 154-168): clear expired family slots; drop the
entry entirely when both slots are now empty, keep it otherwise. -/
def sweepEntry (now : Nat) (p : String × record) : Option (String × record) :=
  let a := cleanupSlot now p.2.A
  let aaaa := cleanupSlot now p.2.AAAA
  if a.isNone && aaaa.isNone then none else some (p.1, (⟨a, aaaa⟩ : record))

/-- Translation of `Cleanup` (nameserver_doh.go lines 145-175): on an
empty store return at once with the "nothing to do" report (the Boolean
second component; in the source it is the early error return); otherwise
sweep every entry.  The source's final re-allocation of an emptied map is
semantically a no-op. -/
def Cleanup (now : Nat) (ips : Store) : Store × Bool :=
  if ips.isEmpty then (ips, true)
  else (ips.filterMap (sweepEntry now), false)

/-- What `sendQuery` decides before any network activity: which question
types it dispatches, and whether the self-resolution guard fired and
logged its usage error. -/
structure SendQueryResult where
  dispatched : List ReqType
  selfQueryLogged : Bool
deriving DecidableEq

/-- Modelled from the spec: `buildReqMsgs` (defined outside this slice)
builds one standalone wire query per requested address family (§4.5);
only the question types matter to the dispatch decision. -/
def buildReqTypes (option : IPOption) : List ReqType :=
  (if option.IPv4Enable then [ReqType.TypeA] else []) ++
    (if option.IPv6Enable then [ReqType.TypeAAAA] else [])

/-- Translation of the dispatch decision of `sendQuery`
(nameserver_doh.go lines 225-233): the self-resolution guard compares the
server name plus a trailing dot against the DOH-prefixed domain; when it
fires, the function writes a usage-error log line and returns — it has no
error return value — and nothing is dispatched.  Otherwise one request
per requested family is dispatched. -/
def sendQuery (name domain : String) (option : IPOption) : SendQueryResult :=
  if name ++ "." = "DOH//" ++ domain then ⟨[], true⟩
  else ⟨buildReqTypes option, false⟩

/-- The outcome of one in-flight query's goroutine inside `sendQuery`
(nameserver_doh.go lines 261-281): packing, transport and decode failures
each log and return early; only a successfully decoded reply reaches
`updateIP`. -/
inductive QueryReplyEvent where
  | packFailed
  | transportFailed
  | decodeFailed
  | decoded (ipRec : IPRecord)
deriving DecidableEq

/-- Translation of the goroutine body of `sendQuery` after the dispatch
decision: the store and published topics that one reply outcome produces.
Failures touch nothing and surface no value to the resolution caller. -/
def handleQueryReply (st : Store) (req : dnsRequest) (ev : QueryReplyEvent) :
    Store × List String :=
  match ev with
  | QueryReplyEvent.packFailed => (st, [])
  | QueryReplyEvent.transportFailed => (st, [])
  | QueryReplyEvent.decodeFailed => (st, [])
  | QueryReplyEvent.decoded ipRec =>
    let u := updateIP st req ipRec
    (u.ips, u.published)

/-- The two ways a Go context reports termination (`ctx.Err()`). -/
inductive CtxErr where
  | canceled
  | deadlineExceeded
deriving DecidableEq

/-- The values `QueryIP` can return from its wait loop: cached addresses,
the empty-response condition, or the caller's own context error. -/
inductive QueryIPReturn where
  | ips (l : List NetIP)
  | emptyResponse
  | ctxErr (e : CtxErr)
deriving DecidableEq

/-- Translation of one iteration of the wait loop of `QueryIP`
(nameserver_doh.go lines 397-409): re-attempt the lookup and return its
result unless it is record-not-found; on record-not-found, return the
context error when the context is done, otherwise block on the
subscription wake-up and iterate again (`none`). -/
def queryIPLoopIter (st : Store) (fqdn : String) (option : IPOption)
    (ctxDone : Option CtxErr) : Option QueryIPReturn :=
  match findIPsForDomain st fqdn option with
  | Except.ok l => some (QueryIPReturn.ips l)
  | Except.error DNSErr.errEmptyResponse => some QueryIPReturn.emptyResponse
  | Except.error DNSErr.errRecordNotFound =>
    match ctxDone with
    | some e => some (QueryIPReturn.ctxErr e)
    | none => none

/-- Claim-side condition: some requested family has a cached answer for
this domain (a present slot, possibly with an empty address list). -/
def hasCachedAnswer (st : Store) (d : String) (option : IPOption) : Prop :=
  ∃ r, List.lookup d st = some r ∧
    ((option.IPv4Enable = true ∧ r.A.isSome = true) ∨
      (option.IPv6Enable = true ∧ r.AAAA.isSome = true))

/-- Boolean form of `hasCachedAnswer`, mirroring the guard on line 346 of
the source. -/
def hasCachedAnswerB (st : Store) (d : String) (option : IPOption) : Bool :=
  match List.lookup d st with
  | none => false
  | some r => (option.IPv4Enable && r.A.isSome) || (option.IPv6Enable && r.AAAA.isSome)

/-- Claim-side value: the concatenation of the cached addresses of the
requested families (an absent or empty family contributes nothing). -/
def requestedAddrs (st : Store) (d : String) (option : IPOption) : List Address :=
  match List.lookup d st with
  | none => []
  | some r =>
    (if option.IPv4Enable then (Option.map IPRecord.IP r.A).getD [] else []) ++
      (if option.IPv6Enable then (Option.map IPRecord.IP r.AAAA).getD [] else [])

/-- The family slot of a record selected by a question type. -/
def slotOf : ReqType → record → Option IPRecord
  | ReqType.TypeA, r => r.A
  | ReqType.TypeAAAA, r => r.AAAA

/-- The AAAA slot the store holds for a domain (absent domains hold
nothing). -/
def slotAAAA (st : Store) (d : String) : Option IPRecord :=
  ((List.lookup d st).getD ⟨none, none⟩).AAAA

/-- The pub/sub topic tag of a question type: `"4"` for A, `"6"` for
AAAA (nameserver_doh.go lines 211-216). -/
def familyTag : ReqType → String
  | ReqType.TypeA => "4"
  | ReqType.TypeAAAA => "6"

lemma lookup_insert (s : Store) (d : String) (r : record) :
    List.lookup d (Store.insert s d r) = some r := by
  induction s with
  | nil => simp [Store.insert, List.lookup]
  | cons p t ih =>
    obtain ⟨d0, r0⟩ := p
    by_cases h : d0 = d
    · subst h
      simp [Store.insert, List.lookup]
    · simp only [Store.insert, if_neg h]
      have hbeq : (d == d0) = false := beq_eq_false_iff_ne.mpr (Ne.symm h)
      simp [List.lookup, hbeq, ih]

/-- Claim C9: each call to `newReqID` returns the previous identifier plus
one modulo 2^16 — the identifiers form a wrapping 16-bit sequence.  The
counter state `c` holds the raw 32-bit value after the previous call, so
the previously issued identifier is `c % 65536`. -/
theorem newReqID_wraps (c : Nat) :
    (newReqID c).1 = ((c % 65536) + 1) % 65536 ∧ (newReqID c).1 < 65536 := by
  have h : (newReqID c).1 = ((c + 1) % 4294967296) % 65536 := rfl
  rw [h]
  omega

/-- Claim C10: every invocation of `updateIP` publishes on exactly the
topic of its address family — domain plus `"4"` for A, domain plus `"6"`
for AAAA — with no condition on the freshness guard's verdict: the
equation holds for every store and every candidate, including ones whose
merge is rejected and leaves the store unchanged. -/
theorem updateIP_always_publishes (st : Store) (req : dnsRequest) (ipRec : IPRecord) :
    (updateIP st req ipRec).published = [req.domain ++ familyTag req.reqType] := by
  obtain ⟨d, t⟩ := req
  cases t <;> rfl

/-- Claim C2: once an answer with sequence `n` is cached for a domain and
family, merging a candidate whose sequence `m` has a negative 16-bit
signed difference `m - n` (that is, `(m - n) mod 2^16 ≥ 2^15`) leaves the
whole store unchanged.  `updateIP` has no error channel, so the rejection
is silent, not an error. -/
theorem updateIP_stale_rejected (st : Store) (req : dnsRequest) (ipRec : IPRecord)
    (r0 : record) (base : IPRecord)
    (hfound : List.lookup req.domain st = some r0)
    (hslot : slotOf req.reqType r0 = some base)
    (hneg : 32768 ≤ (ipRec.ReqID % 65536 + 65536 - base.ReqID % 65536) % 65536) :
    (updateIP st req ipRec).ips = st := by
  obtain ⟨d, t⟩ := req
  have hguard : ¬ (0 < (ipRec.ReqID % 65536 + 65536 - base.ReqID % 65536) % 65536 ∧
      (ipRec.ReqID % 65536 + 65536 - base.ReqID % 65536) % 65536 < 32768) := by omega
  cases t with
  | TypeA =>
    have hA : r0.A = some base := hslot
    simp [updateIP, hfound, hA, isNewer, hguard]
  | TypeAAAA =>
    have hB : r0.AAAA = some base := hslot
    simp [updateIP, hfound, hB, isNewer, hguard]

theorem updateIP_stale_rejected_witness :
    (updateIP [("example.com.", ⟨some ⟨5, [], 300⟩, none⟩)]
        ⟨"example.com.", ReqType.TypeA⟩ ⟨65535, [], 400⟩).ips =
      [("example.com.", ⟨some ⟨5, [], 300⟩, none⟩)] :=
  updateIP_stale_rejected [("example.com.", ⟨some ⟨5, [], 300⟩, none⟩)]
    ⟨"example.com.", ReqType.TypeA⟩ ⟨65535, [], 400⟩ ⟨some ⟨5, [], 300⟩, none⟩
    ⟨5, [], 300⟩ rfl rfl (by decide)

/-- Claim C8: when an AAAA answer is merged, what gets installed carries
only true 128-bit addresses: either the AAAA slot is left as it was, or it
now holds the candidate with its address list filtered to 16-byte
addresses, all of whose members have byte length 16. -/
theorem updateIP_aaaa_only_ipv6 (st : Store) (req : dnsRequest) (ipRec : IPRecord)
    (hT : req.reqType = ReqType.TypeAAAA) :
    slotAAAA (updateIP st req ipRec).ips req.domain = slotAAAA st req.domain ∨
    (∃ r6, slotAAAA (updateIP st req ipRec).ips req.domain = some r6 ∧
      r6.IP = ipRec.IP.filter (fun ip => ip.IP.length == IPv6len) ∧
      ∀ a ∈ r6.IP, a.IP.length = IPv6len) := by
  obtain ⟨d, t⟩ := req
  simp only at hT
  subst hT
  by_cases hn : isNewer ((List.lookup d st).getD ⟨none, none⟩).AAAA
      ⟨ipRec.ReqID, ipRec.IP.filter fun ip => ip.IP.length == IPv6len, ipRec.Expire⟩
  · right
    refine ⟨⟨ipRec.ReqID, ipRec.IP.filter fun ip => ip.IP.length == IPv6len, ipRec.Expire⟩,
      ?_, rfl, ?_⟩
    · simp [updateIP, hn, slotAAAA, lookup_insert]
    · intro a ha
      have hmem := (List.mem_filter.mp ha).2
      simpa using hmem
  · left
    simp [updateIP, hn]

theorem updateIP_aaaa_only_ipv6_witness :
    slotAAAA (updateIP []
        ⟨"example.com.", ReqType.TypeAAAA⟩
        ⟨7, [⟨[1, 2, 3, 4]⟩, ⟨[0, 0, 0, 0, 0, 0, 0, 0, 0, 0, 0, 0, 0, 0, 0, 1]⟩], 300⟩).ips
      "example.com." = slotAAAA [] "example.com." ∨
    (∃ r6, slotAAAA (updateIP []
        ⟨"example.com.", ReqType.TypeAAAA⟩
        ⟨7, [⟨[1, 2, 3, 4]⟩, ⟨[0, 0, 0, 0, 0, 0, 0, 0, 0, 0, 0, 0, 0, 0, 0, 1]⟩], 300⟩).ips
      "example.com." = some r6 ∧
      r6.IP = [(⟨[1, 2, 3, 4]⟩ : Address), ⟨[0, 0, 0, 0, 0, 0, 0, 0, 0, 0, 0, 0, 0, 0, 0, 1]⟩].filter
        (fun ip => ip.IP.length == IPv6len) ∧
      ∀ a ∈ r6.IP, a.IP.length = IPv6len) :=
  updateIP_aaaa_only_ipv6 [] ⟨"example.com.", ReqType.TypeAAAA⟩
    ⟨7, [⟨[1, 2, 3, 4]⟩, ⟨[0, 0, 0, 0, 0, 0, 0, 0, 0, 0, 0, 0, 0, 0, 0, 1]⟩], 300⟩ rfl

/-- Claim C4: while the lookup is still record-not-found, a done context
makes the wait loop of `QueryIP` return the context's own error and no
addresses; and an in-flight query that fails to pack, to reach the
upstream, or to decode touches neither the store nor any subscriber — so
transport and decode failures never become a return value of `QueryIP`,
whose loop yields only addresses, the empty-response condition, or the
context error. -/
theorem queryIP_ctx_and_failure_isolation (st : Store) (fqdn : String)
    (option : IPOption) (e : CtxErr) (req : dnsRequest) (ev : QueryReplyEvent)
    (hmiss : findIPsForDomain st fqdn option = Except.error DNSErr.errRecordNotFound)
    (hfail : ev = QueryReplyEvent.packFailed ∨ ev = QueryReplyEvent.transportFailed ∨
      ev = QueryReplyEvent.decodeFailed) :
    queryIPLoopIter st fqdn option (some e) = some (QueryIPReturn.ctxErr e) ∧
    handleQueryReply st req ev = (st, []) := by
  constructor
  · simp [queryIPLoopIter, hmiss]
  · rcases hfail with h | h | h <;> subst h <;> rfl

theorem queryIP_ctx_and_failure_isolation_witness :
    queryIPLoopIter [] "example.com." ⟨true, true⟩ (some CtxErr.canceled) =
      some (QueryIPReturn.ctxErr CtxErr.canceled) ∧
    handleQueryReply [] ⟨"example.com.", ReqType.TypeA⟩ QueryReplyEvent.transportFailed =
      ([], []) :=
  queryIP_ctx_and_failure_isolation [] "example.com." ⟨true, true⟩ CtxErr.canceled
    ⟨"example.com.", ReqType.TypeA⟩ QueryReplyEvent.transportFailed rfl
    (Or.inr (Or.inl rfl))

/-- Claim C5 (amended): when the queried domain is the upstream DoH
endpoint's own name, `sendQuery` short-circuits before any dispatch and
logs a configuration/usage error; it returns nothing, so no error reaches
the caller. -/
theorem sendQuery_self_short_circuit (name domain : String) (option : IPOption)
    (h : name ++ "." = "DOH//" ++ domain) :
    (sendQuery name domain option).dispatched = [] ∧
    (sendQuery name domain option).selfQueryLogged = true := by
  simp [sendQuery, h]

theorem sendQuery_self_short_circuit_witness :
    (sendQuery "DOH//cloudflare-dns.com" "cloudflare-dns.com." ⟨true, false⟩).dispatched = [] ∧
    (sendQuery "DOH//cloudflare-dns.com" "cloudflare-dns.com." ⟨true, false⟩).selfQueryLogged = true :=
  sendQuery_self_short_circuit "DOH//cloudflare-dns.com" "cloudflare-dns.com." ⟨true, false⟩ rfl

/-- Claim C5 counterexample to the surfacing half of the original claim:
at a concrete self-query, the guard fires (nothing is dispatched, a usage
error is logged), yet the resolution caller receives no
configuration/usage error — the store is untouched, and the wait loop
returns the caller's own cancellation error, the only error it can ever
yield besides the empty-response condition. -/
theorem sendQuery_self_not_surfaced_cex :
    (sendQuery "DOH//one.one.one.one" "one.one.one.one." ⟨true, false⟩).dispatched = [] ∧
    (sendQuery "DOH//one.one.one.one" "one.one.one.one." ⟨true, false⟩).selfQueryLogged = true ∧
    queryIPLoopIter [] "one.one.one.one." ⟨true, false⟩ (some CtxErr.canceled) =
      some (QueryIPReturn.ctxErr CtxErr.canceled) := by
  refine ⟨?_, ?_, rfl⟩ <;> decide

lemma cleanupSlot_idem (now : Nat) (o : Option IPRecord) :
    cleanupSlot now (cleanupSlot now o) = cleanupSlot now o := by
  cases o with
  | none => rfl
  | some x =>
    by_cases h : x.Expire < now
    · simp [cleanupSlot, h]
    · simp [cleanupSlot, h]

lemma cleanupSlot_live (now : Nat) (o : Option IPRecord) (x : IPRecord)
    (h : cleanupSlot now o = some x) : now ≤ x.Expire := by
  cases o with
  | none => simp [cleanupSlot] at h
  | some y =>
    by_cases hy : y.Expire < now
    · simp [cleanupSlot, hy] at h
    · simp [cleanupSlot, hy] at h
      subst h
      omega

lemma sweepEntry_idem (now : Nat) (p q : String × record)
    (h : sweepEntry now p = some q) : sweepEntry now q = some q := by
  unfold sweepEntry at h ⊢
  by_cases hc : ((cleanupSlot now p.2.A).isNone && (cleanupSlot now p.2.AAAA).isNone) = true
  · simp [hc] at h
  · rw [if_neg hc] at h
    injection h with h1
    subst h1
    simp only [cleanupSlot_idem]
    rw [if_neg hc]

lemma sweep_idem (now : Nat) (l : Store) :
    (l.filterMap (sweepEntry now)).filterMap (sweepEntry now) =
      l.filterMap (sweepEntry now) := by
  induction l with
  | nil => rfl
  | cons p t ih =>
    cases h : sweepEntry now p with
    | none => simp [List.filterMap_cons, h, ih]
    | some q => simp [List.filterMap_cons, h, sweepEntry_idem now p q h, ih]

/-- Claim C6 (amended): running `Cleanup` twice at the same sweep instant
with no intervening merges leaves the store contents of the first run
untouched, and the second run issues the "nothing to do" report exactly
when the first run left the store empty — the report is the early return
on an empty store, not a statement that nothing was deleted. -/
theorem Cleanup_second_run (now : Nat) (st : Store) :
    (Cleanup now (Cleanup now st).1).1 = (Cleanup now st).1 ∧
    (Cleanup now (Cleanup now st).1).2 = (Cleanup now st).1.isEmpty := by
  by_cases h : st.isEmpty = true
  · simp [Cleanup, h]
  · simp only [Cleanup, h, if_false, Bool.false_eq_true]
    by_cases h1 : (st.filterMap (sweepEntry now)).isEmpty = true
    · simp [h1]
    · simp [h1, sweep_idem]

/-- Claim C6 counterexample: a store holding one domain with one
unexpired answer survives the first sweep unchanged, and the second sweep
— contrary to the claim — does not report that there was nothing to
clean (the report is issued only when the store is empty at entry). -/
theorem Cleanup_second_run_cex :
    (Cleanup 50 [("example.com.", (⟨some ⟨1, [], 100⟩, none⟩ : record))]).1 =
      [("example.com.", (⟨some ⟨1, [], 100⟩, none⟩ : record))] ∧
    (Cleanup 50 (Cleanup 50
      [("example.com.", (⟨some ⟨1, [], 100⟩, none⟩ : record))]).1).2 = false := by
  refine ⟨?_, ?_⟩ <;> decide

lemma sweepEntry_live (now : Nat) (p : String × record) (d : String) (r : record)
    (h : sweepEntry now p = some (d, r)) :
    (∃ x, r.A = some x ∧ now ≤ x.Expire) ∨
      (∃ x, r.AAAA = some x ∧ now ≤ x.Expire) := by
  unfold sweepEntry at h
  by_cases hc : ((cleanupSlot now p.2.A).isNone && (cleanupSlot now p.2.AAAA).isNone) = true
  · simp [hc] at h
  · rw [if_neg hc] at h
    injection h with h1
    injection h1 with h2 h3
    rw [Bool.and_eq_true, not_and_or] at hc
    cases hA : cleanupSlot now p.2.A with
    | some x =>
      left
      refine ⟨x, ?_, cleanupSlot_live now _ x hA⟩
      rw [← h3, hA]
    | none =>
      cases hB : cleanupSlot now p.2.AAAA with
      | some y =>
        right
        refine ⟨y, ?_, cleanupSlot_live now _ y hB⟩
        rw [← h3, hB]
      | none =>
        exfalso
        rcases hc with hc | hc <;> simp [hA, hB] at hc

/-- Claim C7: after any run of `Cleanup`, every domain still present in
the store has at least one family answer whose expiry has not passed at
the sweep time — no entry with both slots empty or expired survives. -/
theorem Cleanup_no_dead_domains (now : Nat) (st : Store) (d : String) (r : record)
    (h : (d, r) ∈ (Cleanup now st).1) :
    (∃ x, r.A = some x ∧ now ≤ x.Expire) ∨
      (∃ x, r.AAAA = some x ∧ now ≤ x.Expire) := by
  unfold Cleanup at h
  by_cases hs : st.isEmpty = true
  · rw [if_pos hs] at h
    rw [List.isEmpty_iff.mp hs] at h
    simp at h
  · rw [if_neg hs] at h
    obtain ⟨p, hp, hpe⟩ := List.mem_filterMap.mp h
    exact sweepEntry_live now p d r hpe

theorem Cleanup_no_dead_domains_witness :
    (∃ x, (⟨some (⟨1, [], 100⟩ : IPRecord), none⟩ : record).A = some x ∧ 50 ≤ x.Expire) ∨
      (∃ x, (⟨some (⟨1, [], 100⟩ : IPRecord), none⟩ : record).AAAA = some x ∧ 50 ≤ x.Expire) :=
  Cleanup_no_dead_domains 50 [("example.com.", ⟨some ⟨1, [], 100⟩, none⟩)] "example.com."
    ⟨some ⟨1, [], 100⟩, none⟩ (by decide)

lemma findIPs_spec (st : Store) (d : String) (option : IPOption) :
    findIPsForDomain st d option =
      if 0 < (requestedAddrs st d option).length then
        Except.ok (toNetIP (requestedAddrs st d option))
      else if hasCachedAnswerB st d option then Except.error DNSErr.errEmptyResponse
      else Except.error DNSErr.errRecordNotFound := by
  unfold findIPsForDomain requestedAddrs hasCachedAnswerB
  cases hl : List.lookup d st with
  | none => simp
  | some r =>
    cases h4 : option.IPv4Enable <;> cases h6 : option.IPv6Enable <;>
      cases hA : r.A <;> cases hB : r.AAAA <;>
      simp [getIPs, hA, hB]

lemma hasCachedAnswer_iff (st : Store) (d : String) (option : IPOption) :
    hasCachedAnswer st d option ↔ hasCachedAnswerB st d option = true := by
  unfold hasCachedAnswer hasCachedAnswerB
  cases hl : List.lookup d st with
  | none => simp
  | some r => simp

lemma requestedAddrs_ne_nil_cached (st : Store) (d : String) (option : IPOption)
    (h : requestedAddrs st d option ≠ []) : hasCachedAnswerB st d option = true := by
  unfold requestedAddrs at h
  unfold hasCachedAnswerB
  cases hl : List.lookup d st with
  | none => rw [hl] at h; simp at h
  | some r =>
    rw [hl] at h
    cases h4 : option.IPv4Enable <;> cases h6 : option.IPv6Enable <;>
      cases hA : r.A <;> cases hB : r.AAAA <;>
      simp_all

/-- Claim C1: the Hit/Miss/Empty trichotomy of `findIPsForDomain` — when
no requested family has any cached answer the result is record-not-found
(Miss); when some requested family has a cached answer but the requested
families together yield no addresses the result is the empty-response
condition (Hit-empty); when the requested families yield addresses the
result is exactly their concatenation, taken only from requested
families. -/
theorem findIPsForDomain_trichotomy (st : Store) (d : String) (option : IPOption) :
    (¬ hasCachedAnswer st d option →
      findIPsForDomain st d option = Except.error DNSErr.errRecordNotFound) ∧
    (hasCachedAnswer st d option → requestedAddrs st d option = [] →
      findIPsForDomain st d option = Except.error DNSErr.errEmptyResponse) ∧
    (requestedAddrs st d option ≠ [] →
      findIPsForDomain st d option = Except.ok (toNetIP (requestedAddrs st d option))) := by
  refine ⟨fun hnc => ?_, fun hc hre => ?_, fun hne => ?_⟩
  · have hb : hasCachedAnswerB st d option = false := by
      rcases Bool.eq_false_or_eq_true (hasCachedAnswerB st d option) with h | h
      · exact absurd ((hasCachedAnswer_iff st d option).mpr h) hnc
      · exact h
    have hre : requestedAddrs st d option = [] := by
      by_contra hne
      rw [requestedAddrs_ne_nil_cached st d option hne] at hb
      simp at hb
    rw [findIPs_spec, hre, hb]
    simp
  · have hb := (hasCachedAnswer_iff st d option).mp hc
    rw [findIPs_spec, hre, hb]
    simp
  · rw [findIPs_spec, if_pos (List.length_pos.mpr hne)]

theorem findIPsForDomain_trichotomy_witness :
    findIPsForDomain [] "example.com." ⟨true, true⟩ =
      Except.error DNSErr.errRecordNotFound ∧
    findIPsForDomain [("example.com.", ⟨some ⟨1, [], 300⟩, none⟩)] "example.com."
      ⟨true, true⟩ = Except.error DNSErr.errEmptyResponse ∧
    findIPsForDomain
      [("example.com.", ⟨some ⟨1, [⟨[93, 184, 216, 34]⟩], 300⟩, none⟩)] "example.com."
      ⟨true, true⟩ =
      Except.ok (toNetIP (requestedAddrs
        [("example.com.", ⟨some ⟨1, [⟨[93, 184, 216, 34]⟩], 300⟩, none⟩)] "example.com."
        ⟨true, true⟩)) :=
  ⟨(findIPsForDomain_trichotomy [] "example.com." ⟨true, true⟩).1
      (by simp [hasCachedAnswer]),
    (findIPsForDomain_trichotomy [("example.com.", ⟨some ⟨1, [], 300⟩, none⟩)]
        "example.com." ⟨true, true⟩).2.1
      ⟨⟨some ⟨1, [], 300⟩, none⟩, rfl, Or.inl ⟨rfl, rfl⟩⟩ (by decide),
    (findIPsForDomain_trichotomy
        [("example.com.", ⟨some ⟨1, [⟨[93, 184, 216, 34]⟩], 300⟩, none⟩)]
        "example.com." ⟨true, true⟩).2.2 (by decide)⟩
